import Mathlib

/-!
Verification model of the go-logger repository: a shallow embedding of the
leveled logger (console output plus an optional date-rotated log file)
together with proofs that check the specification claims against it.

Modelling conventions:
* The Go Level type is a uint8; levels are modelled as Nat. No arithmetic
  is ever performed on a level, only order comparisons and printing, so no
  wrap-around can occur; theorems about out-of-range level values carry an
  explicit upper bound of 255 to stay inside the uint8 domain.
* Strings are modelled by Lean String over the same character data. The
  only byte-indexed operation, the Go call strings.LastIndex(path, "/"),
  is modelled by a character-indexed last-occurrence search; the two agree
  on every branch condition the code tests (index absent, or index not at
  the very end), because "/" is a one-byte character and every character
  occupies at least one byte.
* Effects (os.OpenFile, file appends, stdout, stderr, os.Exit, panics) are
  modelled by explicit state passing over a World record. The clock
  (time.Now) and the operating system environment (which paths can be
  opened, the text of an open error, the caller frame that runtime.Caller
  reports) are collected in an Env record that is read, never written.
* A nil-pointer dereference of the file logger inside writeToFile is
  modelled by setting the crashed flag of the World; once crashed, the
  remaining effects of the call (the console write) do not happen, exactly
  as a Go panic would abort the rest of the call.
* openFile reports an open failure through the root logger. In Go that
  nested Log call skips its file branch because the handle is nil in every
  state that reaches the report from this model (rotation closes the file
  first, and the initial setup has no handle); if a usable handle were
  still installed, the Go code would self-deadlock on fileSync, which the
  model marks with the deadlocked flag to stay total. No claim reaches it.
-/

/-! ## The level enumeration (level file, part 004) -/

abbrev Level := Nat

def LevelTrace : Level := 0
def LevelDebug : Level := 1
def LevelInfo : Level := 2
def LevelWarning : Level := 3
def LevelError : Level := 4
def LevelFatal : Level := 5

/-- Level.String: the Go switch over the six defined levels; any other
value falls through the switch and returns DEBUG. -/
def Level.String (lvl : Level) : String :=
  if lvl = LevelTrace then "TRACE"
  else if lvl = LevelDebug then "DEBUG"
  else if lvl = LevelInfo then "INFO"
  else if lvl = LevelWarning then "WARN"
  else if lvl = LevelError then "ERROR"
  else if lvl = LevelFatal then "FATAL"
  else "DEBUG"

/-! ## Clock and environment -/

/-- One instant of the wall clock, as read by time.Now. -/
structure DateTime where
  year : Nat
  month : Nat
  day : Nat
  hour : Nat
  minute : Nat
  second : Nat
deriving DecidableEq

/-- Two-digit zero padding, as produced by the Go layout fragments 01, 02,
15, 04, 05. -/
def pad2 (n : Nat) : String :=
  if n < 10 then "0" ++ Nat.repr n else Nat.repr n

/-- Four-digit zero padding, as produced by the Go layout fragment 2006. -/
def pad4 (n : Nat) : String :=
  if n < 10 then "000" ++ Nat.repr n
  else if n < 100 then "00" ++ Nat.repr n
  else if n < 1000 then "0" ++ Nat.repr n
  else Nat.repr n

/-- The Go layout 2006-01-02 used by getFileDate. -/
def formatDate (t : DateTime) : String :=
  pad4 t.year ++ "-" ++ pad2 t.month ++ "-" ++ pad2 t.day

/-- The Go layout 2006-01-02 15:04:05 used for the message header. -/
def formatDateTime (t : DateTime) : String :=
  formatDate t ++ " " ++ pad2 t.hour ++ ":" ++ pad2 t.minute ++ ":" ++ pad2 t.second

/-- The ambient execution environment: the current clock instant, which
paths the operating system lets us open, the error text produced when an
open fails, and the caller frame that runtime.Caller reports. -/
structure Env where
  now : DateTime
  canOpen : String → Bool
  openErrMsg : String
  callerOk : Bool
  callerFile : String
  callerLine : Nat

/-! ## File system and world state -/

/-- The observable file system: each path maps to the list of lines
appended to it so far. Absent paths read as empty. -/
abbrev FileSys := List (String × List String)

def fsRead : FileSys → String → List String
  | [], _ => []
  | (q, ls) :: rest, p => if q = p then ls else fsRead rest p

/-- Append one line to the file at a path (creating it when absent), as a
Println on an O_APPEND handle followed by Sync does. -/
def fsAppend : FileSys → String → String → FileSys
  | [], p, line => [(p, [line])]
  | (q, ls) :: rest, p, line =>
    if q = p then (q, ls ++ [line]) :: rest
    else (q, ls) :: fsAppend rest p line

/-- Create an empty file at a path when absent (the O_CREATE flag of
os.OpenFile); an existing file is untouched. -/
def fsTouch : FileSys → String → FileSys
  | [], p => [(p, [])]
  | (q, ls) :: rest, p =>
    if q = p then (q, ls) :: rest
    else (q, ls) :: fsTouch rest p

/-- The full mutable state of one run: the file system, the single shared
sink handle (the path the open file was created under, none when closed;
in the source, file and logger are nil exactly together), the console
streams, and the two abnormal-termination markers. -/
structure World where
  fs : FileSys
  sink : Option String
  stdout : List String
  stderr : List String
  exited : Bool
  crashed : Bool
  deadlocked : Bool

/-! ## Logger configuration (facade and file sink, parts 002 and 003) -/

/-- FileLogger configuration: minimum file level, base path, and the
date-suffix flag. The runtime fields (mutexes, handle, writer, root
back-reference) live in World and in the function parameters. -/
structure FileLogger where
  Level : Level
  Path : String
  AppendDate : Bool

/-- Logger facade configuration. enableColors is colorConf.enableColors as
resolved by newColorConfig during setup (environment dependent, therefore
carried as configuration here). FuncCallIncrement only shifts which stack
frame runtime.Caller inspects; the resulting frame is already what
Env.callerFile and Env.callerLine provide. -/
structure Logger where
  Level : Level
  ColoredOutput : Bool
  PrintSource : Bool
  OnlyPrintMessage : Bool
  FuncCallIncrement : Nat
  PrefixStr : String
  enableColors : Bool
  File : FileLogger

/-! ## Colors (colors file) -/

/-- color returns a function that pads the string with the given code. -/
def color (code termination : String) : String → String :=
  fun str => code ++ str ++ termination

def colPurple : String → String := color "\x1b[1;35m" "\x1b[0m"
def colPurpleLight : String → String := color "\x1b[0;35m" "\x1b[0m"
def colRed : String → String := color "\x1b[1;31m" "\x1b[0m"
def colYellow : String → String := color "\x1b[1;33m" "\x1b[0m"
def colBlue : String → String := color "\x1b[1;34m" "\x1b[0m"
def colBlueLight : String → String := color "\x1b[0;34m" "\x1b[0m"
def colCyan : String → String := color "\x1b[1;36m" "\x1b[0m"
def colGreen : String → String := color "\x1b[0;32m" "\x1b[0m"

/-- levelGetColor: the matching color for the level. -/
def levelGetColor (l : Level) : String → String :=
  if l = LevelTrace then colPurpleLight
  else if l = LevelDebug then colGreen
  else if l = LevelInfo then colBlue
  else if l = LevelWarning then colYellow
  else colRed

/-- getColored: pad the message with the color when coloring is
enabled. -/
def getColored (l : Logger) (message : String) (colorFn : String → String) : String :=
  if l.enableColors = true then colorFn message else message

/-! ## String helpers from the Go standard library -/

/-- Character-indexed model of strings.LastIndex(s, c-as-one-char-string):
the Go accumulator scan returning -1 when the character is absent. -/
def lastIndexAux (c : Char) : List Char → Nat → Int → Int
  | [], _, acc => acc
  | x :: xs, i, acc => lastIndexAux c xs (i + 1) (if x = c then (i : Int) else acc)

def strLastIndex (s : String) (c : Char) : Int :=
  lastIndexAux c s.toList 0 (-1)

/-- Specification companion of lastIndexAux: the position of the last
occurrence, when there is one. -/
def lastPos? (c : Char) : List Char → Option Nat
  | [] => none
  | x :: xs =>
    match lastPos? c xs with
    | some j => some (j + 1)
    | none => if x = c then some 0 else none

/-- strings.ReplaceAll(path, one backslash, one slash): every backslash
character becomes a forward slash. -/
def canonicalSlashes (s : String) : String :=
  String.mk (s.toList.map (fun c => if c = '\\' then '/' else c))

/-- The Go slice file[strings.LastIndex(file, slash)+1:]: everything after
the last slash (the whole string when there is none). -/
def afterLastSlash (s : String) : String :=
  (s.splitOn "/").getLastD ""

/-- strings.ToLower, character by character (the names fed to it in this
program are ASCII, where the Go function and Char.toLower agree). -/
def strToLower (s : String) : String :=
  String.mk (s.toList.map Char.toLower)

/-- strings.TrimSpace: drop whitespace from both ends. -/
def trimSpace (s : String) : String :=
  String.mk (((s.toList.dropWhile Char.isWhitespace).reverse.dropWhile
    Char.isWhitespace).reverse)

/-- fmt.Sprintf with verb percent-minus-five-s applied to a level: the
level name left-justified, padded on the right with spaces to width 5. -/
def padRight5 (s : String) : String :=
  s ++ String.mk (List.replicate (5 - s.length) ' ')

/-! ## Path computation (file logger, part 002) -/

/-- getFileDate: the current date formatted as the log file path suffix. -/
def getFileDate (env : Env) : String :=
  formatDate env.now

/-- getFilePath: canonicalize separators, then append the date
when enabled, with the three branches of the source. -/
def getFilePath (l : FileLogger) (env : Env) : String :=
  let path := canonicalSlashes l.Path
  if l.AppendDate = true then
    let lastSlash := strLastIndex path '/'
    if lastSlash ≠ -1 ∧ lastSlash + 1 < (path.length : Int) then
      path ++ "." ++ getFileDate env
    else if lastSlash = -1 then
      path ++ "." ++ getFileDate env
    else
      path ++ getFileDate env
  else path

/-! ## Message rendering (facade, part 003) -/

/-- getSourceMessage: the optional source locator, with the runtime.Caller
fallback to the unknown marker. -/
def getSourceMessage (env : Env) (l : Logger) : String :=
  if l.PrintSource = false then ""
  else
    let file := if env.callerOk = true then env.callerFile else "#unknown"
    let line := if env.callerOk = true then env.callerLine else 0
    let fileName := afterLastSlash file ++ ":" ++ Nat.repr line
    " (" ++ fileName ++ ")"

/-- The plain message built by logCore (the one written to the file):
header plus message unless OnlyPrintMessage is set. The message parameter
stands for the printf-substituted text. -/
def renderPlain (l : Logger) (env : Env) (level : Level) (message : String) : String :=
  let levelName := padRight5 (Level.String level)
  if l.OnlyPrintMessage = true then message
  else
    "[" ++ levelName ++ "] " ++ formatDateTime env.now ++ getSourceMessage env l
      ++ l.PrefixStr ++ " - " ++ message

/-- The colored message built by logCore (the one sent to the console):
first the whole plain message is colored by the level color, then, unless
OnlyPrintMessage is set, it is rebuilt from individually colored header
segments joined to that colored plain message. -/
def renderColored (l : Logger) (env : Env) (level : Level) (message : String) : String :=
  let levelName := padRight5 (Level.String level)
  let printMessage := renderPlain l env level message
  let base := getColored l printMessage (levelGetColor level)
  if l.OnlyPrintMessage = true then base
  else
    getColored l ("[" ++ levelName ++ "] ") (levelGetColor level)
      ++ getColored l (formatDateTime env.now) colCyan
      ++ getColored l (getSourceMessage env l) colPurple
      ++ getColored l l.PrefixStr colBlueLight
      ++ " - " ++ base

/-! ## Operational model of the sink and the facade -/

/-- The console section at the end of logCore: gate on the facade
minimum level; Error goes to stderr, Fatal goes to stderr and then exits
the process, everything else goes to stdout. -/
def consoleDispatch (l : Logger) (level : Level) (line : String) (w : World) : World :=
  if l.Level ≤ level then
    if level = LevelError then { w with stderr := w.stderr ++ [line] }
    else if level = LevelFatal then { w with stderr := w.stderr ++ [line], exited := true }
    else { w with stdout := w.stdout ++ [line] }
  else w

/-- closeFile: close and clear the handle (idempotent). -/
def closeFile (w : World) : World :=
  { w with sink := none }

/-- openFile: compute the path and open it in append-or-create
mode. On success the handle is installed; on failure the error is reported
through the root logger as an Error-level message. In every state this
model reaches the failure report from, the handle is closed, so the file
branch of that nested Log is skipped (logger is nil) and only its console
dispatch runs; a still-installed handle would self-deadlock in Go and is
marked instead. -/
def openFile (cfg : FileLogger) (root : Logger) (env : Env) (w : World) : World :=
  let path := getFilePath cfg env
  if env.canOpen path = true then
    { w with sink := some path, fs := fsTouch w.fs path }
  else
    let msg := "Cannot access the log file \x27" ++ path ++ "\x27\n" ++ env.openErrMsg
    if w.sink = none then
      consoleDispatch root LevelError (renderColored root env LevelError msg) w
    else
      { w with deadlocked := true }

/-- writeToFile: when the date suffix is enabled and the open
handle name no longer matches the freshly computed path, close and reopen
(the double-checked locking of the source collapses in this sequential
model); then append the line and sync. A nil handle or a failed reopen
makes the subsequent nil dereference of file or logger panic, modelled by
the crashed flag. For a Fatal message the handle is closed afterwards. -/
def writeToFile (cfg : FileLogger) (root : Logger) (env : Env)
    (message : String) (level : Level) (w : World) : World :=
  match w.sink with
  | none => { w with crashed := true }
  | some handlePath =>
    let w1 :=
      if cfg.AppendDate = true ∧ handlePath ≠ getFilePath cfg env then
        openFile cfg root env (closeFile w)
      else w
    match w1.sink with
    | none => { w1 with crashed := true }
    | some h =>
      let w2 := { w1 with fs := fsAppend w1.fs h message }
      if level = LevelFatal then closeFile w2 else w2

/-- logCore: render both message variants, run the file branch when the
sink minimum level admits the message and a file logger is installed
(sink open), then run the console branch. A panic in the file branch
aborts the call before the console write. -/
def logCore (l : Logger) (env : Env) (level : Level) (message : String) (w : World) : World :=
  let printMessage := renderPlain l env level message
  let printMessageColored := renderColored l env level message
  let w1 :=
    if l.File.Level ≤ level ∧ w.sink ≠ none then
      writeToFile l.File l env printMessage level w
    else w
  if w1.crashed = true then w1
  else consoleDispatch l level printMessageColored w1

/-- Log: the exported wrapper (it only fixes the runtime.Caller
depth). -/
def Log (l : Logger) (env : Env) (level : Level) (message : String) (w : World) : World :=
  logCore l env level message w

/-- setup: open the configured file (unless the path is blank or
keepFile is set); close it when no path is configured. Installing the
console writers and resolving the color configuration touch only the
configuration, and the recover block around newColorConfig swallows its
panics, so neither appears in the world transition. -/
def setup (l : Logger) (keepFile : Bool) (env : Env) (w : World) : World :=
  if trimSpace l.File.Path ≠ "" ∧ keepFile = false then
    openFile l.File l env w
  else if keepFile = false then
    closeFile w
  else w

/-! ## The historical variant in logger.go (second document): its log
builds the level name by an explicit switch and substitutes Warning for an
unrecognized value, prefixing the message with a note. -/

/-- The level-name switch of the logger.go variant; an unrecognized value
leaves the name empty. -/
def levelNameV1 (level : Level) : String :=
  if level = LevelTrace then "TRACE"
  else if level = LevelDebug then "DEBUG"
  else if level = LevelInfo then "INFO "
  else if level = LevelWarning then "WARN "
  else if level = LevelError then "ERROR"
  else if level = LevelFatal then "FATAL"
  else ""

/-- The invalid-level substitution of the logger.go variant: when the
switch left the name empty, log with WARN and prefix the original message
with a note naming the invalid value. Returns the effective level, the
level name, and the effective message. -/
def logAdjustInvalidV1 (level : Level) (message : String) : Level × String × String :=
  let levelName := levelNameV1 level
  if levelName = "" then
    (LevelWarning, "WARN ",
      "Invalid level value given: " ++ Nat.repr level ++ ". Original message: " ++ message)
  else (level, levelName, message)

/-! ## Level parsing and environment configuration (parts 001, 003, 004) -/

/-- GetLevelByName of the level file (part 004): lower-case the name and
match it; an unrecognized name logs a warning and returns Warning. The
Bool records whether that warning diagnostic was emitted. -/
def GetLevelByName (levelName : String) : Level × Bool :=
  let n := strToLower levelName
  if n = "trace" then (LevelTrace, false)
  else if n = "debug" then (LevelDebug, false)
  else if n = "info" then (LevelInfo, false)
  else if n = "warn" ∨ n = "warning" then (LevelWarning, false)
  else if n = "error" then (LevelError, false)
  else if n = "panic" ∨ n = "fatal" then (LevelFatal, false)
  else (LevelWarning, true)

/-- getEnvString: the variable when set, the default otherwise. -/
def getEnvString (getenv : String → Option String) (name defaultValue : String) : String :=
  match getenv name with
  | some strVal => strVal
  | none => defaultValue

/-- getEnvBool: when set, true exactly for the four accepted spellings;
the default otherwise. -/
def getEnvBool (getenv : String → Option String) (name : String) (defaultValue : Bool) : Bool :=
  match getenv name with
  | some strVal =>
    let s := strToLower strVal
    (s == "1") || (s == "true") || (s == "yes") || (s == "ja")
  | none => defaultValue

/-- GetLoggerFromEnv (part 003): populate the configuration from the
LOGGER_ environment variables, falling back to the given defaults. The
closing NewLogger call only runs setup, which does not touch any of these
configuration fields, so the configuration result is this record update. -/
def GetLoggerFromEnv (getenv : String → Option String) (defaultLogger : Logger) : Logger :=
  { defaultLogger with
    ColoredOutput := getEnvBool getenv "LOGGER_COLOREDOUTPUT" defaultLogger.ColoredOutput,
    Level := (GetLevelByName (getEnvString getenv "LOGGER_LEVEL"
                (Level.String defaultLogger.Level))).1,
    OnlyPrintMessage := getEnvBool getenv "LOGGER_ONLYPRINTMESSAGE"
                defaultLogger.OnlyPrintMessage,
    PrintSource := getEnvBool getenv "LOGGER_PRINTSOURCE" defaultLogger.PrintSource,
    File := { defaultLogger.File with
      Level := (GetLevelByName (getEnvString getenv "LOGGER_FILE_LEVEL"
                  (Level.String defaultLogger.File.Level))).1,
      Path := getEnvString getenv "LOGGER_FILE_PATH" defaultLogger.File.Path,
      AppendDate := getEnvBool getenv "LOGGER_FILE_APPENDDATE"
                  defaultLogger.File.AppendDate } }

/-! ## Derived observations used by the claims -/

/-- The number of console lines emitted so far. -/
def consoleCount (w : World) : Nat :=
  w.stdout.length + w.stderr.length

/-- A healthy sink: either no handle is open, or any rotation the next
write triggers will succeed in reopening the file. -/
def sinkOkB (l : Logger) (env : Env) (w : World) : Bool :=
  match w.sink with
  | none => true
  | some h =>
    if l.File.AppendDate = true ∧ h ≠ getFilePath l.File env then
      env.canOpen (getFilePath l.File env)
    else true

/-! ## Shared concrete instances for witnesses and counterexamples -/

/-- A clock instant and a permissive operating system. -/
def envTrue : Env :=
  { now := ⟨2024, 5, 1, 10, 20, 30⟩, canOpen := fun _ => true,
    openErrMsg := "permission denied", callerOk := true,
    callerFile := "/x/main.go", callerLine := 10 }

/-- The same instant with every open refused. -/
def envFalse : Env :=
  { envTrue with canOpen := fun _ => false }

/-- The next day, with opens permitted. -/
def envDay2 : Env :=
  { envTrue with now := ⟨2024, 5, 2, 0, 0, 1⟩ }

/-- A facade with console minimum Info over a date-suffixed file sink. -/
def baseLogger : Logger :=
  { Level := LevelInfo, ColoredOutput := false, PrintSource := false,
    OnlyPrintMessage := false, FuncCallIncrement := 0, PrefixStr := "",
    enableColors := false,
    File := { Level := LevelTrace, Path := "logs", AppendDate := true } }

/-- A console-only facade (blank file path, no date suffix). -/
def plainLogger : Logger :=
  { Level := LevelTrace, ColoredOutput := false, PrintSource := false,
    OnlyPrintMessage := false, FuncCallIncrement := 0, PrefixStr := "",
    enableColors := false,
    File := { Level := LevelInfo, Path := "", AppendDate := false } }

/-- A facade with console minimum Error over a sink with minimum Debug at
a fixed path (the independence scenario of the spec). -/
def c3Logger : Logger :=
  { Level := LevelError, ColoredOutput := false, PrintSource := false,
    OnlyPrintMessage := false, FuncCallIncrement := 0, PrefixStr := "",
    enableColors := false,
    File := { Level := LevelDebug, Path := "f.log", AppendDate := false } }

/-- A world whose sink is open at the given path, that path holding one
old line. -/
def worldOpen (p : String) : World :=
  { fs := [(p, ["old"])], sink := some p, stdout := [], stderr := [],
    exited := false, crashed := false, deadlocked := false }

/-- A fresh world: empty file system, no handle. -/
def worldClosed : World :=
  { fs := [], sink := none, stdout := [], stderr := [],
    exited := false, crashed := false, deadlocked := false }

/-- The facade and world of the rotation-reopen-failure scenario: the sink
is open at the path of the previous day while the clock has moved on. -/
def crashLogger : Logger :=
  { Level := LevelDebug, ColoredOutput := false, PrintSource := false,
    OnlyPrintMessage := false, FuncCallIncrement := 0, PrefixStr := "",
    enableColors := false,
    File := { Level := LevelTrace, Path := "app.log", AppendDate := true } }

def crashEnv : Env :=
  { now := ⟨2024, 5, 2, 0, 0, 1⟩, canOpen := fun _ => false,
    openErrMsg := "permission denied", callerOk := true,
    callerFile := "main.go", callerLine := 12 }

def crashWorld : World :=
  { fs := [("app.log.2024-05-01", ["previous line"])],
    sink := some "app.log.2024-05-01", stdout := [], stderr := [],
    exited := false, crashed := false, deadlocked := false }

/-! ## Helper lemmas about the file-system model -/

theorem fsRead_append_same (fs : FileSys) (p line : String) :
    fsRead (fsAppend fs p line) p = fsRead fs p ++ [line] := by
  induction fs with
  | nil => simp [fsAppend, fsRead]
  | cons head rest ih =>
    obtain ⟨q, ls⟩ := head
    by_cases h : q = p
    · simp [fsAppend, fsRead, h]
    · simp [fsAppend, fsRead, h, ih]

theorem fsRead_append_other (fs : FileSys) (p q line : String) (h : q ≠ p) :
    fsRead (fsAppend fs p line) q = fsRead fs q := by
  induction fs with
  | nil => simp [fsAppend, fsRead, Ne.symm h]
  | cons head rest ih =>
    obtain ⟨r, ls⟩ := head
    by_cases hr : r = p
    · subst hr
      simp [fsAppend, fsRead, Ne.symm h]
    · simp [fsAppend, fsRead, hr, ih]

theorem fsRead_touch (fs : FileSys) (p q : String) :
    fsRead (fsTouch fs p) q = fsRead fs q := by
  induction fs with
  | nil =>
    by_cases h : p = q <;> simp [fsTouch, fsRead, h]
  | cons head rest ih =>
    obtain ⟨r, ls⟩ := head
    by_cases hr : r = p <;> simp [fsTouch, fsRead, hr, ih]

/-! ## Helper lemmas about the console dispatch -/

theorem consoleDispatch_fs (l : Logger) (level : Level) (line : String) (w : World) :
    (consoleDispatch l level line w).fs = w.fs := by
  unfold consoleDispatch
  split
  · split
    · rfl
    · split <;> rfl
  · rfl

theorem consoleDispatch_sink (l : Logger) (level : Level) (line : String) (w : World) :
    (consoleDispatch l level line w).sink = w.sink := by
  unfold consoleDispatch
  split
  · split
    · rfl
    · split <;> rfl
  · rfl

theorem consoleDispatch_crashed (l : Logger) (level : Level) (line : String) (w : World) :
    (consoleDispatch l level line w).crashed = w.crashed := by
  unfold consoleDispatch
  split
  · split
    · rfl
    · split <;> rfl
  · rfl

theorem consoleCount_dispatch (l : Logger) (level : Level) (line : String) (w : World) :
    consoleCount (consoleDispatch l level line w)
      = consoleCount w + (if l.Level ≤ level then 1 else 0) := by
  unfold consoleDispatch consoleCount
  by_cases h : l.Level ≤ level
  · simp only [if_pos h]
    split
    · simp
      omega
    · split <;> (simp; try omega)
  · simp [if_neg h]

/-! ## Helper lemmas about the last-index search -/

theorem lastIndexAux_eq (c : Char) (l : List Char) : ∀ (i : Nat) (acc : Int),
    lastIndexAux c l i acc =
      match lastPos? c l with
      | some j => (i : Int) + j
      | none => acc := by
  induction l with
  | nil => intro i acc; rfl
  | cons x xs ih =>
    intro i acc
    show lastIndexAux c xs (i + 1) (if x = c then (i : Int) else acc) = _
    rw [ih]
    by_cases hx : x = c
    · cases hps : lastPos? c xs with
      | some j =>
        simp only [lastPos?, hps]
        push_cast
        ring
      | none => simp [lastPos?, hps, hx]
    · cases hps : lastPos? c xs with
      | some j =>
        simp only [lastPos?, hps]
        push_cast
        ring
      | none => simp [lastPos?, hps, hx]

theorem lastPos?_none_iff (c : Char) (l : List Char) :
    lastPos? c l = none ↔ c ∉ l := by
  induction l with
  | nil => simp [lastPos?]
  | cons x xs ih =>
    simp only [lastPos?]
    cases hps : lastPos? c xs with
    | some j =>
      have hmem : c ∈ xs := by
        by_contra hmem
        rw [ih.mpr hmem] at hps
        exact Option.noConfusion hps
      simp [List.mem_cons, hmem]
    | none =>
      have hnm : c ∉ xs := ih.mp hps
      by_cases hx : x = c
      · simp [hx, List.mem_cons]
      · simp [hx, List.mem_cons, hnm, Ne.symm hx]

theorem mem_of_getLastEq (l : List Char) (a : Char) (h : l.getLast? = some a) :
    a ∈ l := by
  induction l with
  | nil => exact Option.noConfusion h
  | cons x xs ih =>
    cases xs with
    | nil =>
      simp only [List.getLast?_singleton, Option.some.injEq] at h
      simp [h]
    | cons y ys =>
      rw [List.getLast?_cons_cons] at h
      exact List.mem_cons_of_mem x (ih h)

theorem lastPos?_some_spec (c : Char) (l : List Char) : ∀ (j : Nat),
    lastPos? c l = some j →
    j + 1 ≤ l.length ∧ (j + 1 = l.length ↔ l.getLast? = some c) := by
  induction l with
  | nil => intro j h; exact Option.noConfusion h
  | cons x xs ih =>
    intro j h
    simp only [lastPos?] at h
    cases hps : lastPos? c xs with
    | some j0 =>
      rw [hps] at h
      injection h with h
      subst h
      obtain ⟨h1, h2⟩ := ih j0 hps
      have hxs : xs ≠ [] := by
        intro hn
        rw [hn] at hps
        exact Option.noConfusion hps
      refine ⟨by simp [List.length_cons]; omega, ?_⟩
      cases xs with
      | nil => exact absurd rfl hxs
      | cons y ys =>
        rw [List.getLast?_cons_cons]
        simp only [List.length_cons] at h2 ⊢
        constructor
        · intro hh
          exact h2.mp (by omega)
        · intro hh
          have := h2.mpr hh
          omega
    | none =>
      rw [hps] at h
      by_cases hx : x = c
      · rw [if_pos hx] at h
        injection h with h
        subst h
        refine ⟨by simp, ?_⟩
        cases xs with
        | nil => simp [hx]
        | cons y ys =>
          rw [List.getLast?_cons_cons]
          have hnc : c ∉ (y :: ys) := (lastPos?_none_iff c (y :: ys)).mp hps
          constructor
          · intro hh
            simp [List.length_cons] at hh
          · intro hh
            exact absurd (mem_of_getLastEq _ _ hh) hnc
      · rw [if_neg hx] at h
        exact Option.noConfusion h

/-! ## Level round trip helper -/

theorem levelRoundTrip (lvl : Level) (h : lvl ≤ LevelFatal) :
    GetLevelByName (Level.String lvl) = (lvl, false) := by
  have h5 : lvl ≤ 5 := h
  interval_cases lvl <;> decide

/-! ## The file branch does not touch the console when the sink is healthy -/

theorem writeToFile_preserves_console (cfg : FileLogger) (root : Logger) (env : Env)
    (m : String) (lvl : Level) (w : World) (h : String) (hs : w.sink = some h)
    (hok : cfg.AppendDate = true → h ≠ getFilePath cfg env →
      env.canOpen (getFilePath cfg env) = true) :
    (writeToFile cfg root env m lvl w).stdout = w.stdout ∧
    (writeToFile cfg root env m lvl w).stderr = w.stderr ∧
    (writeToFile cfg root env m lvl w).crashed = w.crashed ∧
    (writeToFile cfg root env m lvl w).exited = w.exited := by
  obtain ⟨fs0, sink0, so, se, ex, cr, dl⟩ := w
  simp only at hs
  subst hs
  by_cases hc : cfg.AppendDate = true ∧ h ≠ getFilePath cfg env
  · have hco := hok hc.1 hc.2
    simp only [writeToFile, closeFile, openFile, hc, and_self, if_true, hco, if_pos]
    simp [hc, hco]
    split <;> simp [closeFile]
  · simp only [writeToFile]
    simp [hc]
    split <;> simp [closeFile]

theorem logCore_consoleCount (l : Logger) (env : Env) (lvl : Level) (msg : String) (w : World)
    (hok : sinkOkB l env w = true) (hcr : w.crashed = false) :
    consoleCount (Log l env lvl msg w)
      = consoleCount w + (if l.Level ≤ lvl then 1 else 0) := by
  simp only [Log, logCore]
  by_cases hg : l.File.Level ≤ lvl ∧ w.sink ≠ none
  · obtain ⟨hg1, hg2⟩ := hg
    obtain ⟨h, hs⟩ : ∃ h, w.sink = some h := by
      cases hsk : w.sink with
      | none => exact absurd hsk hg2
      | some x => exact ⟨x, rfl⟩
    have hok2 : l.File.AppendDate = true → h ≠ getFilePath l.File env →
        env.canOpen (getFilePath l.File env) = true := by
      intro ha hne
      simp only [sinkOkB, hs] at hok
      have hcnd : l.File.AppendDate = true ∧ h ≠ getFilePath l.File env := ⟨ha, hne⟩
      rw [if_pos hcnd] at hok
      exact hok
    obtain ⟨h1, h2, h3, _⟩ :=
      writeToFile_preserves_console l.File l env (renderPlain l env lvl msg) lvl w h hs hok2
    have hgc : l.File.Level ≤ lvl ∧ w.sink ≠ none := ⟨hg1, hg2⟩
    rw [if_pos hgc, h3, hcr]
    simp only [Bool.false_eq_true, if_false]
    rw [consoleCount_dispatch]
    unfold consoleCount
    rw [h1, h2]
  · rw [if_neg hg, hcr]
    simp only [Bool.false_eq_true, if_false]
    rw [consoleCount_dispatch]

/-! ## Path computation characterized through the last-occurrence search -/

theorem getFilePath_cases (l : FileLogger) (env : Env) (had : l.AppendDate = true) :
    getFilePath l env =
      (match lastPos? '/' (canonicalSlashes l.Path).toList with
       | none => canonicalSlashes l.Path ++ "." ++ getFileDate env
       | some j =>
         if j + 1 < (canonicalSlashes l.Path).toList.length
         then canonicalSlashes l.Path ++ "." ++ getFileDate env
         else canonicalSlashes l.Path ++ getFileDate env) := by
  simp only [getFilePath, had, eq_self_iff_true, if_true, strLastIndex, lastIndexAux_eq]
  have hlen : ((canonicalSlashes l.Path).length : Int)
      = ((canonicalSlashes l.Path).toList.length : Int) := rfl
  cases hps : lastPos? '/' (canonicalSlashes l.Path).toList with
  | none => simp
  | some j =>
    simp only [Nat.cast_zero, zero_add]
    by_cases hj : j + 1 < (canonicalSlashes l.Path).toList.length
    · have hcnd : ((j : Int) ≠ -1 ∧
          (j : Int) + 1 < ((canonicalSlashes l.Path).length : Int)) := by
        rw [hlen]
        constructor <;> omega
      rw [if_pos hcnd, if_pos hj]
    · have hcnd : ¬((j : Int) ≠ -1 ∧
          (j : Int) + 1 < ((canonicalSlashes l.Path).length : Int)) := by
        rw [hlen]
        intro hcc
        exact absurd hcc.2 (by omega)
      have hm1 : ¬((j : Int) = -1) := by omega
      rw [if_neg hcnd, if_neg hm1, if_neg hj]

/-- C4: confirmed. getFilePath first replaces every backslash in the
configured path with a forward slash; then, with date suffixing enabled:
when the canonicalized path contains a slash with at least one character
after the last slash, or contains no slash at all, the current date in
YYYY-MM-DD form is appended preceded by a dot; when the path ends with a
slash, the date is appended directly without a dot. -/
theorem C4_getFilePath_date_suffix (l : FileLogger) (env : Env)
    (had : l.AppendDate = true) :
    ((('/' ∈ (canonicalSlashes l.Path).toList ∧
        (canonicalSlashes l.Path).toList.getLast? ≠ some '/') ∨
      '/' ∉ (canonicalSlashes l.Path).toList) →
        getFilePath l env = canonicalSlashes l.Path ++ "." ++ getFileDate env) ∧
    ((canonicalSlashes l.Path).toList.getLast? = some '/' →
        getFilePath l env = canonicalSlashes l.Path ++ getFileDate env) := by
  rw [getFilePath_cases l env had]
  cases hps : lastPos? '/' (canonicalSlashes l.Path).toList with
  | none =>
    have hnotin : '/' ∉ (canonicalSlashes l.Path).toList := (lastPos?_none_iff _ _).mp hps
    constructor
    · intro _
      rfl
    · intro hlast
      exact absurd (mem_of_getLastEq _ _ hlast) hnotin
  | some j =>
    have hmem : '/' ∈ (canonicalSlashes l.Path).toList := by
      by_contra hnm
      rw [(lastPos?_none_iff _ _).mpr hnm] at hps
      exact Option.noConfusion hps
    obtain ⟨hle, hiff⟩ := lastPos?_some_spec '/' _ j hps
    by_cases hj : j + 1 < (canonicalSlashes l.Path).toList.length
    · constructor
      · intro _
        simp only [if_pos hj]
      · intro hlast
        have := hiff.mpr hlast
        omega
    · have hj1 : j + 1 = (canonicalSlashes l.Path).toList.length := by omega
      have hlast : (canonicalSlashes l.Path).toList.getLast? = some '/' := hiff.mp hj1
      constructor
      · intro hd
        rcases hd with ⟨_, hne⟩ | hni
        · exact absurd hlast hne
        · exact absurd hmem hni
      · intro _
        simp only [if_neg hj]

/-- C4 witness: the claim instantiated at a concrete sink configuration
whose path contains a backslash. -/
theorem C4_witness :
    ((('/' ∈ (canonicalSlashes baseLogger.File.Path).toList ∧
        (canonicalSlashes baseLogger.File.Path).toList.getLast? ≠ some '/') ∨
      '/' ∉ (canonicalSlashes baseLogger.File.Path).toList) →
        getFilePath baseLogger.File envTrue
          = canonicalSlashes baseLogger.File.Path ++ "." ++ getFileDate envTrue) ∧
    ((canonicalSlashes baseLogger.File.Path).toList.getLast? = some '/' →
        getFilePath baseLogger.File envTrue
          = canonicalSlashes baseLogger.File.Path ++ getFileDate envTrue) :=
  C4_getFilePath_date_suffix baseLogger.File envTrue rfl

/-- C10: confirmed. For every level of the defined enumeration, parsing
the string form of the level with GetLevelByName yields the same level
through a recognized branch (no warning diagnostic), and therefore
GetLoggerFromEnv leaves the caller-supplied console and file levels (and
every other configuration field) unchanged when no environment variable
is set. -/
theorem C10_level_roundtrip_env (lvl : Level) (hlvl : lvl ≤ LevelFatal)
    (getenv : String → Option String) (d : Logger)
    (henv : ∀ n, getenv n = none)
    (hd1 : d.Level ≤ LevelFatal) (hd2 : d.File.Level ≤ LevelFatal) :
    GetLevelByName (Level.String lvl) = (lvl, false) ∧
    GetLoggerFromEnv getenv d = d := by
  refine ⟨levelRoundTrip lvl hlvl, ?_⟩
  obtain ⟨dL, dC, dP, dO, dF, dPre, dE, dFile⟩ := d
  obtain ⟨fL, fP, fA⟩ := dFile
  simp only at hd1 hd2
  have r1 := levelRoundTrip dL hd1
  have r2 := levelRoundTrip fL hd2
  simp [GetLoggerFromEnv, getEnvString, getEnvBool, henv, r1, r2]

/-- C10 witness: the round trip at level Warning, and default preservation
for a concrete logger under an empty environment. -/
theorem C10_witness :
    GetLevelByName (Level.String LevelWarning) = (LevelWarning, false) ∧
    GetLoggerFromEnv (fun _ => none) plainLogger = plainLogger :=
  C10_level_roundtrip_env LevelWarning (by decide) (fun _ => none) plainLogger
    (fun _ => rfl) (by decide) (by decide)

/-- A Log call below the console minimum leaves stdout and stderr exactly
as they were (when the sink is healthy and the process has not crashed). -/
theorem logCore_console_silent (l : Logger) (env : Env) (lvl : Level) (msg : String)
    (w : World) (hok : sinkOkB l env w = true) (hcr : w.crashed = false)
    (hlt : lvl < l.Level) :
    (Log l env lvl msg w).stdout = w.stdout ∧ (Log l env lvl msg w).stderr = w.stderr := by
  simp only [Log, logCore]
  by_cases hg : l.File.Level ≤ lvl ∧ w.sink ≠ none
  · obtain ⟨hg1, hg2⟩ := hg
    obtain ⟨h, hs⟩ : ∃ h, w.sink = some h := by
      cases hsk : w.sink with
      | none => exact absurd hsk hg2
      | some x => exact ⟨x, rfl⟩
    have hok2 : l.File.AppendDate = true → h ≠ getFilePath l.File env →
        env.canOpen (getFilePath l.File env) = true := by
      intro ha hne
      simp only [sinkOkB, hs] at hok
      have hcnd : l.File.AppendDate = true ∧ h ≠ getFilePath l.File env := ⟨ha, hne⟩
      rw [if_pos hcnd] at hok
      exact hok
    obtain ⟨h1, h2, h3, _⟩ :=
      writeToFile_preserves_console l.File l env (renderPlain l env lvl msg) lvl w h hs hok2
    have hgc : l.File.Level ≤ lvl ∧ w.sink ≠ none := ⟨hg1, hg2⟩
    rw [if_pos hgc, h3, hcr]
    simp only [Bool.false_eq_true, if_false]
    unfold consoleDispatch
    rw [if_neg (not_le.mpr hlt)]
    exact ⟨h1, h2⟩
  · rw [if_neg hg, hcr]
    simp only [Bool.false_eq_true, if_false]
    unfold consoleDispatch
    rw [if_neg (not_le.mpr hlt)]
    exact ⟨rfl, rfl⟩

/-- C2: confirmed. For any message level strictly below the facade console
minimum, a Log call emits no console line (stdout and stderr are left
exactly as they were), and for any message level at or above the console
minimum it emits exactly one console line, provided the sink is healthy
(no failing rotation) so that the file branch neither reports nor
panics. -/
theorem C2_console_level_gate (l : Logger) (env : Env) (w : World)
    (msg1 msg2 : String) (L1 L2 : Level)
    (hok : sinkOkB l env w = true) (hcr : w.crashed = false)
    (h1 : L1 < l.Level) (h2 : l.Level ≤ L2) :
    (Log l env L1 msg1 w).stdout = w.stdout ∧
    (Log l env L1 msg1 w).stderr = w.stderr ∧
    consoleCount (Log l env L2 msg2 w) = consoleCount w + 1 := by
  obtain ⟨hso, hse⟩ := logCore_console_silent l env L1 msg1 w hok hcr h1
  refine ⟨hso, hse, ?_⟩
  rw [logCore_consoleCount l env L2 msg2 w hok hcr, if_pos h2]

/-- C2 witness: console minimum Info; a Debug message adds no console
line, an Error message adds exactly one. -/
theorem C2_witness :
    (Log baseLogger envTrue LevelDebug "a" (worldOpen "logs.2024-05-01")).stdout
      = (worldOpen "logs.2024-05-01").stdout ∧
    (Log baseLogger envTrue LevelDebug "a" (worldOpen "logs.2024-05-01")).stderr
      = (worldOpen "logs.2024-05-01").stderr ∧
    consoleCount (Log baseLogger envTrue LevelError "b" (worldOpen "logs.2024-05-01"))
      = consoleCount (worldOpen "logs.2024-05-01") + 1 :=
  C2_console_level_gate baseLogger envTrue (worldOpen "logs.2024-05-01") "a" "b"
    LevelDebug LevelError (by decide) rfl (by decide) (by decide)

/-- C3: confirmed. With an open file logger and no pending rotation, a
message admitted by the sink minimum level but below the console minimum
level is appended to the log file and produces no console output: the
file gate is the sink level alone, independent of the console level. -/
theorem C3_file_gate_independent (l : Logger) (env : Env) (w : World)
    (msg : String) (lvl : Level) (h : String)
    (hs : w.sink = some h) (hnd : l.File.AppendDate = false)
    (hcr : w.crashed = false)
    (hfile : l.File.Level ≤ lvl) (hcons : lvl < l.Level) :
    fsRead (Log l env lvl msg w).fs h
      = fsRead w.fs h ++ [renderPlain l env lvl msg] ∧
    (Log l env lvl msg w).stdout = w.stdout ∧
    (Log l env lvl msg w).stderr = w.stderr := by
  obtain ⟨fs0, sink0, so, se, ex, cr, dl⟩ := w
  simp only at hs hcr
  subst hs
  subst hcr
  have hg : l.File.Level ≤ lvl ∧ (some h : Option String) ≠ none := ⟨hfile, by simp⟩
  have hnc : ¬ l.Level ≤ lvl := not_le.mpr hcons
  by_cases hf : lvl = LevelFatal
  · subst hf
    simp [Log, logCore, writeToFile, closeFile, consoleDispatch, hg, hnd, hnc,
      fsRead_append_same]
  · simp [Log, logCore, writeToFile, closeFile, consoleDispatch, hg, hnd, hf, hnc,
      fsRead_append_same]

/-- C3 witness: console minimum Error, sink minimum Debug; a Debug message
lands in the file and prints nothing. -/
theorem C3_witness :
    fsRead (Log c3Logger envTrue LevelDebug "d" (worldOpen "f.log")).fs "f.log"
      = fsRead (worldOpen "f.log").fs "f.log"
        ++ [renderPlain c3Logger envTrue LevelDebug "d"] ∧
    (Log c3Logger envTrue LevelDebug "d" (worldOpen "f.log")).stdout
      = (worldOpen "f.log").stdout ∧
    (Log c3Logger envTrue LevelDebug "d" (worldOpen "f.log")).stderr
      = (worldOpen "f.log").stderr :=
  C3_file_gate_independent c3Logger envTrue (worldOpen "f.log") "d" LevelDebug "f.log"
    rfl rfl rfl (by decide) (by decide)

/-- C7: confirmed (in the no-pending-rotation state). A Fatal Log call
with both gates open appends the plain line to the file, closes the sink
handle, writes the colored line to stderr (not stdout), and terminates
the process; both sinks hold the message in the final state. -/
theorem C7_fatal_behavior (l : Logger) (env : Env) (w : World) (msg : String) (h : String)
    (hs : w.sink = some h) (hnd : l.File.AppendDate = false) (hcr : w.crashed = false)
    (hfile : l.File.Level ≤ LevelFatal) (hcons : l.Level ≤ LevelFatal) :
    fsRead (Log l env LevelFatal msg w).fs h
      = fsRead w.fs h ++ [renderPlain l env LevelFatal msg] ∧
    (Log l env LevelFatal msg w).sink = none ∧
    (Log l env LevelFatal msg w).stderr = w.stderr ++ [renderColored l env LevelFatal msg] ∧
    (Log l env LevelFatal msg w).stdout = w.stdout ∧
    (Log l env LevelFatal msg w).exited = true := by
  obtain ⟨fs0, sink0, so, se, ex, cr, dl⟩ := w
  simp only at hs hcr
  subst hs
  subst hcr
  have hg : l.File.Level ≤ LevelFatal ∧ (some h : Option String) ≠ none := ⟨hfile, by simp⟩
  have hne45 : ¬ (LevelFatal = LevelError) := by decide
  simp [Log, logCore, writeToFile, closeFile, consoleDispatch, hg, hnd, hcons, hne45,
    fsRead_append_same]

/-- C7 witness: a concrete Fatal call against an open sink. -/
theorem C7_witness :
    fsRead (Log plainLogger envTrue LevelFatal "bye" (worldOpen "f.log")).fs "f.log"
      = fsRead (worldOpen "f.log").fs "f.log"
        ++ [renderPlain plainLogger envTrue LevelFatal "bye"] ∧
    (Log plainLogger envTrue LevelFatal "bye" (worldOpen "f.log")).sink = none ∧
    (Log plainLogger envTrue LevelFatal "bye" (worldOpen "f.log")).stderr
      = (worldOpen "f.log").stderr ++ [renderColored plainLogger envTrue LevelFatal "bye"] ∧
    (Log plainLogger envTrue LevelFatal "bye" (worldOpen "f.log")).stdout
      = (worldOpen "f.log").stdout ∧
    (Log plainLogger envTrue LevelFatal "bye" (worldOpen "f.log")).exited = true :=
  C7_fatal_behavior plainLogger envTrue (worldOpen "f.log") "bye" "f.log"
    rfl rfl rfl (by decide) (by decide)

/-- C1: confirmed. With date suffixing enabled, when the open handle name
differs from the path computed from the current date and that path can be
opened, the append closes the old handle, opens the new date-suffixed
path, and writes the line there; the previously open file is left
unchanged. -/
theorem C1_rotation_on_date_change (l : Logger) (env : Env) (w : World)
    (msg : String) (lvl : Level) (p1 : String)
    (had : l.File.AppendDate = true)
    (hs : w.sink = some p1)
    (hne : p1 ≠ getFilePath l.File env)
    (hopen : env.canOpen (getFilePath l.File env) = true)
    (hgate : l.File.Level ≤ lvl)
    (hcr : w.crashed = false)
    (hfatal : lvl ≠ LevelFatal) :
    (Log l env lvl msg w).sink = some (getFilePath l.File env) ∧
    fsRead (Log l env lvl msg w).fs (getFilePath l.File env)
      = fsRead w.fs (getFilePath l.File env) ++ [renderPlain l env lvl msg] ∧
    fsRead (Log l env lvl msg w).fs p1 = fsRead w.fs p1 := by
  obtain ⟨fs0, sink0, so, se, ex, cr, dl⟩ := w
  simp only at hs hcr
  subst hs
  subst hcr
  have hg : l.File.Level ≤ lvl ∧ (some p1 : Option String) ≠ none := ⟨hgate, by simp⟩
  have hro := fun fs line => fsRead_append_other fs (getFilePath l.File env) p1 line hne
  simp [Log, logCore, writeToFile, openFile, closeFile, hg, had, hne, hopen, hfatal,
    consoleDispatch_fs, consoleDispatch_sink, fsRead_append_same, fsRead_touch, hro]

/-- C1 witness: the sink is open at the path of May 1st while the clock
reads May 2nd; the append lands in the new file and the old file is
untouched. -/
theorem C1_witness :
    (Log baseLogger envDay2 LevelInfo "m" (worldOpen "logs.2024-05-01")).sink
      = some (getFilePath baseLogger.File envDay2) ∧
    fsRead (Log baseLogger envDay2 LevelInfo "m" (worldOpen "logs.2024-05-01")).fs
        (getFilePath baseLogger.File envDay2)
      = fsRead (worldOpen "logs.2024-05-01").fs (getFilePath baseLogger.File envDay2)
        ++ [renderPlain baseLogger envDay2 LevelInfo "m"] ∧
    fsRead (Log baseLogger envDay2 LevelInfo "m" (worldOpen "logs.2024-05-01")).fs
        "logs.2024-05-01"
      = fsRead (worldOpen "logs.2024-05-01").fs "logs.2024-05-01" :=
  C1_rotation_on_date_change baseLogger envDay2 (worldOpen "logs.2024-05-01") "m"
    LevelInfo "logs.2024-05-01" rfl rfl (by decide) rfl (by decide) rfl (by decide)

/-- C5: confirmed. When the configured path cannot be opened during setup,
the failure is reported as a single Error-level line through the root
logger (one stderr line, nothing on stdout, no file touched), the sink is
left without a handle, and every subsequent Log call is exactly its
console dispatch: the file write is skipped silently and the console
output is produced unchanged. -/
theorem C5_open_failure_console_only (l : Logger) (env : Env) (w : World)
    (lvl : Level) (msg : String)
    (hpath : trimSpace l.File.Path ≠ "")
    (hopen : env.canOpen (getFilePath l.File env) = false)
    (hs : w.sink = none) (hcr : w.crashed = false)
    (hlev : l.Level ≤ LevelError) :
    (setup l false env w).sink = none ∧
    (setup l false env w).stderr = w.stderr ++
      [renderColored l env LevelError
        ("Cannot access the log file \x27" ++ getFilePath l.File env ++ "\x27\n"
          ++ env.openErrMsg)] ∧
    (setup l false env w).stdout = w.stdout ∧
    (setup l false env w).fs = w.fs ∧
    Log l env lvl msg (setup l false env w)
      = consoleDispatch l lvl (renderColored l env lvl msg) (setup l false env w) := by
  obtain ⟨fs0, sink0, so, se, ex, cr, dl⟩ := w
  simp only at hs hcr
  subst hs
  subst hcr
  have hEE : (LevelError = LevelError) := rfl
  have hrep : setup l false env (World.mk fs0 none so se ex false dl)
      = World.mk fs0 none so (se ++ [renderColored l env LevelError
          ("Cannot access the log file \x27" ++ getFilePath l.File env ++ "\x27\n"
            ++ env.openErrMsg)]) ex false dl := by
    simp [setup, openFile, consoleDispatch, hpath, hopen, hlev, hEE]
  rw [hrep]
  refine ⟨rfl, rfl, rfl, rfl, ?_⟩
  simp [Log, logCore]

/-- C5 witness: a sink at path logs that the operating system refuses to
open; setup reports once, and a later Warning call is console-only. -/
theorem C5_witness :
    (setup baseLogger false envFalse worldClosed).sink = none ∧
    (setup baseLogger false envFalse worldClosed).stderr = worldClosed.stderr ++
      [renderColored baseLogger envFalse LevelError
        ("Cannot access the log file \x27" ++ getFilePath baseLogger.File envFalse ++ "\x27\n"
          ++ envFalse.openErrMsg)] ∧
    (setup baseLogger false envFalse worldClosed).stdout = worldClosed.stdout ∧
    (setup baseLogger false envFalse worldClosed).fs = worldClosed.fs ∧
    Log baseLogger envFalse LevelWarning "w" (setup baseLogger false envFalse worldClosed)
      = consoleDispatch baseLogger LevelWarning
          (renderColored baseLogger envFalse LevelWarning "w")
          (setup baseLogger false envFalse worldClosed) :=
  C5_open_failure_console_only baseLogger envFalse worldClosed LevelWarning "w"
    (by decide) rfl rfl rfl (by decide)

/-- C6: the claim says no logging call ever crashes its caller, including
a sink whose rotation-time reopen failed; the code violates this. In the
state where the sink is open at the previous date path, the date has
advanced, and the new date-suffixed path cannot be opened, writeToFile
closes the handle, fails to reopen, and then calls Println on the nil
file logger: a nil-pointer panic that escapes to the caller. The model
evaluates the code at that input: the call crashes and the admitted
console line for the message is never written. -/
theorem C6_rotation_reopen_panic :
    (Log crashLogger crashEnv LevelInfo "hello" crashWorld).crashed = true ∧
    (Log crashLogger crashEnv LevelInfo "hello" crashWorld).stdout = [] ∧
    (Log crashLogger crashEnv LevelInfo "hello" crashWorld).stderr.length = 1 := by
  refine ⟨rfl, rfl, rfl⟩

/-! ## Length of the padded level name -/

theorem levelStringLength (lvl : Level) : (Level.String lvl).length ≤ 5 := by
  unfold Level.String
  repeat' split
  all_goals decide

theorem padRight5_length (s : String) (h : s.length ≤ 5) :
    (padRight5 s).length = 5 := by
  unfold padRight5
  rw [String.length_append]
  have hrep : (String.mk (List.replicate (5 - s.length) ' ')).length = 5 - s.length := by
    show (List.replicate (5 - s.length) ' ').length = 5 - s.length
    exact List.length_replicate _ _
  rw [hrep]
  omega

/-- C8 counterexample: in the current facade (part 003), a Log call with
the out-of-range level value 6 renders a line whose level name is DEBUG
(via the Level stringer fallback) and whose text carries no substitution
note; it is not the Warning-substituted line the claim describes. -/
theorem C8_counterexample :
    renderPlain plainLogger envTrue 6 "boom" = "[DEBUG] 2024-05-01 10:20:30 - boom" ∧
    renderPlain plainLogger envTrue 6 "boom"
      ≠ renderPlain plainLogger envTrue LevelWarning
          ("Invalid level value given: 6. Original message: boom") := by
  refine ⟨rfl, by decide⟩

/-- C8 amended: the Warning substitution with the prefixed note is the
behavior of the logger.go variant of log (modelled by
logAdjustInvalidV1); the facade of part 003 instead renders the DEBUG
level name through the Level stringer fallback and logs the message
unchanged at the raw level value, which is still neither rejected nor
dropped: with the console gate open it prints one stdout line. -/
theorem C8_amended_invalid_level (level : Level) (message msg : String)
    (l : Logger) (env : Env) (w : World)
    (hgt : LevelFatal < level) (hlt : level < 256)
    (hcr : w.crashed = false) (hs : w.sink = none) (hcons : l.Level ≤ level) :
    logAdjustInvalidV1 level message
      = (LevelWarning, "WARN ",
          "Invalid level value given: " ++ Nat.repr level ++ ". Original message: " ++ message) ∧
    Level.String level = "DEBUG" ∧
    (Log l env level msg w).stdout = w.stdout ++ [renderColored l env level msg] ∧
    (Log l env level msg w).stderr = w.stderr := by
  have h0 : level ≠ LevelTrace := by intro hh; rw [hh] at hgt; exact absurd hgt (by decide)
  have h1 : level ≠ LevelDebug := by intro hh; rw [hh] at hgt; exact absurd hgt (by decide)
  have h2 : level ≠ LevelInfo := by intro hh; rw [hh] at hgt; exact absurd hgt (by decide)
  have h3 : level ≠ LevelWarning := by intro hh; rw [hh] at hgt; exact absurd hgt (by decide)
  have h4 : level ≠ LevelError := by intro hh; rw [hh] at hgt; exact absurd hgt (by decide)
  have h5 : level ≠ LevelFatal := by intro hh; rw [hh] at hgt; exact absurd hgt (by decide)
  obtain ⟨fs0, sink0, so, se, ex, cr, dl⟩ := w
  simp only at hs hcr
  subst hs
  subst hcr
  refine ⟨?_, ?_, ?_, ?_⟩
  · simp [logAdjustInvalidV1, levelNameV1, h0, h1, h2, h3, h4, h5]
  · simp [Level.String, h0, h1, h2, h3, h4, h5]
  · simp [Log, logCore, consoleDispatch, hcons, h4, h5]
  · simp [Log, logCore, consoleDispatch, hcons, h4, h5]

/-- C8 witness: the amended claim at the concrete invalid level 6. -/
theorem C8_witness :
    logAdjustInvalidV1 6 "boom"
      = (LevelWarning, "WARN ",
          "Invalid level value given: " ++ Nat.repr 6 ++ ". Original message: " ++ "boom") ∧
    Level.String 6 = "DEBUG" ∧
    (Log plainLogger envTrue 6 "boom" worldClosed).stdout
      = worldClosed.stdout ++ [renderColored plainLogger envTrue 6 "boom"] ∧
    (Log plainLogger envTrue 6 "boom" worldClosed).stderr = worldClosed.stderr :=
  C8_amended_invalid_level 6 "boom" "boom" plainLogger envTrue worldClosed
    (by decide) (by decide) rfl rfl (by decide)

/-- C9 counterexample: the level name of a rendered line is left
justified (padded on the right), not left padded: at level Info the line
carries INFO followed by a space, not a space followed by INFO; moreover
the uncolored console line repeats the whole header a second time, so it
is not the single-header line of the claim. -/
theorem C9_counterexample :
    renderPlain plainLogger envTrue LevelInfo "m" = "[INFO ] 2024-05-01 10:20:30 - m" ∧
    renderPlain plainLogger envTrue LevelInfo "m" ≠ "[ INFO] 2024-05-01 10:20:30 - m" ∧
    renderColored plainLogger envTrue LevelInfo "m"
      = "[INFO ] 2024-05-01 10:20:30 - [INFO ] 2024-05-01 10:20:30 - m" := by
  refine ⟨rfl, by decide, rfl⟩

/-- C9 amended: when OnlyPrintMessage is off, the plain rendered line (the
one written to the file) is the bracketed level name left-justified and
right-padded with spaces to width five, the timestamp, the source locator
(omitted when PrintSource is off), the prefix concatenated as given
(absent when empty), a separating dash, and the message; the console line
with coloring disabled is that same header followed by the dash and then
the full plain line again. -/
theorem C9_amended_header (l : Logger) (env : Env) (level : Level) (msg : String)
    (h1 : l.OnlyPrintMessage = false) (h2 : l.enableColors = false) :
    renderPlain l env level msg
      = "[" ++ padRight5 (Level.String level) ++ "] " ++ formatDateTime env.now
        ++ getSourceMessage env l ++ l.PrefixStr ++ " - " ++ msg ∧
    (padRight5 (Level.String level)).length = 5 ∧
    (l.PrintSource = false → getSourceMessage env l = "") ∧
    renderColored l env level msg
      = "[" ++ padRight5 (Level.String level) ++ "] " ++ formatDateTime env.now
        ++ getSourceMessage env l ++ l.PrefixStr ++ " - " ++ renderPlain l env level msg := by
  refine ⟨?_, padRight5_length _ (levelStringLength level), ?_, ?_⟩
  · simp [renderPlain, h1]
  · intro hps
    simp [getSourceMessage, hps]
  · simp [renderColored, renderPlain, getColored, h1, h2]

/-- C9 witness: the amended claim at level Info with a plain console-only
logger. -/
theorem C9_witness :
    renderPlain plainLogger envTrue LevelInfo "m"
      = "[" ++ padRight5 (Level.String LevelInfo) ++ "] " ++ formatDateTime envTrue.now
        ++ getSourceMessage envTrue plainLogger ++ plainLogger.PrefixStr ++ " - " ++ "m" ∧
    (padRight5 (Level.String LevelInfo)).length = 5 ∧
    (plainLogger.PrintSource = false → getSourceMessage envTrue plainLogger = "") ∧
    renderColored plainLogger envTrue LevelInfo "m"
      = "[" ++ padRight5 (Level.String LevelInfo) ++ "] " ++ formatDateTime envTrue.now
        ++ getSourceMessage envTrue plainLogger ++ plainLogger.PrefixStr ++ " - "
        ++ renderPlain plainLogger envTrue LevelInfo "m" :=
  C9_amended_header plainLogger envTrue LevelInfo "m" rfl rfl
